import Mathlib

set_option autoImplicit false

namespace StudipSync

/-!
Shallow embedding of the content-synchronization engine of studip-sync
(src/studip_sync/studip_rsync.py and src/studip_sync/studip_sync.py).

File names, metadata records and filesystem state are modelled explicitly;
the external Session / plugin / subprocess collaborators stay abstract
(their per-call outcomes are inputs to the embedded drivers).
-/

/-- The characters removed by `clean_name`
(the character class in `re.sub(r'[\\:*?"<>|]', '', ...)`). -/
def isBadChar (c : Char) : Bool :=
  c = '\\' || c = ':' || c = '*' || c = '?' || c = '"' || c = '<' || c = '>' || c = '|'

/-- ASCII whitespace, as stripped by Python `str.strip()` and matched by `\s`.
(Python also strips some non-ASCII Unicode spaces; no course title in any
claim depends on those, so the embedding restricts to the ASCII classes.) -/
def isPySpace (c : Char) : Bool :=
  c = ' ' || c = '\t' || c = '\n' || c = '\r' || c = '\x0b' || c = '\x0c'

/-- Python `str.strip()`: drop leading and trailing whitespace characters. -/
def pyStrip (l : List Char) : List Char :=
  ((l.dropWhile isPySpace).reverse.dropWhile isPySpace).reverse

/-- Python `name.replace("/", "--")` at character level. -/
def replaceSlash : List Char → List Char
  | [] => []
  | c :: cs => if c = '/' then '-' :: '-' :: replaceSlash cs else c :: replaceSlash cs

/-- `clean_name` (studip_rsync.py lines 142-144 = studip_sync.py lines 155-157):
`re.sub(r'[\\:*?"<>|]', '', name.replace("/", "--")).strip()`. -/
def clean_name (name : String) : String :=
  ⟨pyStrip ((replaceSlash name.data).filter (fun c => !isBadChar c))⟩

/-! Helper lemmas about the sanitizer. -/

theorem replaceSlash_no_slash (l : List Char) : ∀ c ∈ replaceSlash l, c ≠ '/' := by
  induction l with
  | nil => intro c hc; simp [replaceSlash] at hc
  | cons a as ih =>
    intro c hc
    by_cases ha : a = '/'
    · rw [replaceSlash, if_pos ha] at hc
      rcases List.mem_cons.mp hc with h | hc2
      · subst h; decide
      rcases List.mem_cons.mp hc2 with h | h
      · subst h; decide
      · exact ih c h
    · rw [replaceSlash, if_neg ha] at hc
      rcases List.mem_cons.mp hc with h | h
      · subst h; exact ha
      · exact ih c h

theorem replaceSlash_eq_self (l : List Char) (h : ∀ c ∈ l, c ≠ '/') :
    replaceSlash l = l := by
  induction l with
  | nil => rfl
  | cons a as ih =>
    have ha : a ≠ '/' := h a (by simp)
    simp [replaceSlash, ha]
    exact ih (fun c hc => h c (by simp [hc]))

theorem pyStrip_subset (l : List Char) : ∀ c ∈ pyStrip l, c ∈ l := by
  intro c hc
  unfold pyStrip at hc
  rw [List.mem_reverse] at hc
  have h1 := (List.dropWhile_sublist (l := (l.dropWhile isPySpace).reverse)
    (p := isPySpace)).mem hc
  rw [List.mem_reverse] at h1
  exact (List.dropWhile_sublist (l := l) (p := isPySpace)).mem h1

theorem head_dropWhile_false (p : Char → Bool) (l : List Char) (c : Char)
    (h : (l.dropWhile p).head? = some c) : p c = false := by
  induction l with
  | nil => simp [List.dropWhile] at h
  | cons a as ih =>
    by_cases hp : p a
    · rw [List.dropWhile_cons_of_pos hp] at h
      exact ih h
    · rw [List.dropWhile_cons_of_neg hp] at h
      simp at h
      subst h
      simpa using hp

theorem dropWhile_idem (p : Char → Bool) (l : List Char) :
    (l.dropWhile p).dropWhile p = l.dropWhile p := by
  cases hd : l.dropWhile p with
  | nil => simp
  | cons a as =>
    have : p a = false := head_dropWhile_false p l a (by rw [hd]; rfl)
    simp [List.dropWhile_cons, this]

theorem getLast?_of_suffix {α : Type} {s l : List α} (h : s <:+ l) (hs : s ≠ []) :
    l.getLast? = s.getLast? := by
  obtain ⟨t, rfl⟩ := h
  exact List.getLast?_append_of_ne_nil t hs

theorem pyStrip_head (l : List Char) (c : Char) (h : (pyStrip l).head? = some c) :
    isPySpace c = false := by
  unfold pyStrip at h
  rw [List.head?_reverse] at h
  have hne : (l.dropWhile isPySpace).reverse.dropWhile isPySpace ≠ [] := by
    intro hnil; rw [hnil] at h; simp at h
  have hsuf : (l.dropWhile isPySpace).reverse.dropWhile isPySpace <:+
      (l.dropWhile isPySpace).reverse := List.dropWhile_suffix _
  have := getLast?_of_suffix hsuf hne
  rw [← this, List.getLast?_reverse] at h
  exact head_dropWhile_false _ _ _ h

theorem pyStrip_getLast (l : List Char) (c : Char) (h : (pyStrip l).getLast? = some c) :
    isPySpace c = false := by
  unfold pyStrip at h
  rw [List.getLast?_reverse] at h
  exact head_dropWhile_false _ _ _ h

theorem dropWhile_eq_self_of_head (p : Char → Bool) (m : List Char)
    (h : ∀ c, m.head? = some c → p c = false) : m.dropWhile p = m := by
  cases m with
  | nil => rfl
  | cons a as => simp [List.dropWhile_cons, h a rfl]

theorem pyStrip_eq_self (m : List Char)
    (hh : ∀ c, m.head? = some c → isPySpace c = false)
    (hl : ∀ c, m.getLast? = some c → isPySpace c = false) : pyStrip m = m := by
  unfold pyStrip
  rw [dropWhile_eq_self_of_head _ _ hh]
  rw [dropWhile_eq_self_of_head _ _ (by intro c hc; rw [List.head?_reverse] at hc; exact hl c hc)]
  exact List.reverse_reverse m

theorem pyStrip_idem (l : List Char) : pyStrip (pyStrip l) = pyStrip l :=
  pyStrip_eq_self _ (pyStrip_head l) (pyStrip_getLast l)

/-- C10: for every input string `x`, `clean_name x` contains none of the characters
`\ : * ? " < > |` and no path separator `/` (separators are folded into a double
dash by the replace step), has no leading or trailing whitespace, and `clean_name`
is idempotent.  The embedding is a pure Lean function, so sanitization is pure and
deterministic by construction. -/
theorem C10_clean_name_safe_idempotent (x : String) :
    (∀ c ∈ (clean_name x).data, isBadChar c = false ∧ c ≠ '/') ∧
    (∀ c, (clean_name x).data.head? = some c → isPySpace c = false) ∧
    (∀ c, (clean_name x).data.getLast? = some c → isPySpace c = false) ∧
    clean_name (clean_name x) = clean_name x := by
  have hmem : ∀ c ∈ (clean_name x).data, isBadChar c = false ∧ c ≠ '/' := by
    intro c hc
    have hc1 : c ∈ (replaceSlash x.data).filter (fun c => !isBadChar c) :=
      pyStrip_subset _ c hc
    rw [List.mem_filter] at hc1
    refine ⟨by simpa using hc1.2, replaceSlash_no_slash _ c hc1.1⟩
  refine ⟨hmem, pyStrip_head _, pyStrip_getLast _, ?_⟩
  show clean_name ⟨pyStrip ((replaceSlash x.data).filter (fun c => !isBadChar c))⟩ = _
  unfold clean_name
  congr 1
  have hslash : replaceSlash (clean_name x).data = (clean_name x).data :=
    replaceSlash_eq_self _ (fun c hc => (hmem c hc).2)
  have hfilter : ((clean_name x).data).filter (fun c => !isBadChar c) = (clean_name x).data := by
    rw [List.filter_eq_self]
    intro c hc
    simpa using (hmem c hc).1
  show pyStrip (((replaceSlash (clean_name x).data)).filter (fun c => !isBadChar c)) = _
  rw [hslash, hfilter]
  show pyStrip (pyStrip ((replaceSlash x.data).filter (fun c => !isBadChar c))) = _
  rw [pyStrip_idem]

/-- Concrete check of C10 at the spec's own example input `"A/B:C"`. -/
theorem C10_clean_name_witness :
    isBadChar '-' = false ∧ '-' ≠ '/' ∧
    clean_name (clean_name "A/B:C") = clean_name "A/B:C" ∧ clean_name "A/B:C" = "A--BC" :=
  ⟨((C10_clean_name_safe_idempotent "A/B:C").1 '-' (by decide)).1,
   ((C10_clean_name_safe_idempotent "A/B:C").1 '-' (by decide)).2,
   (C10_clean_name_safe_idempotent "A/B:C").2.2.2,
   by decide⟩

/-! ## short_course_name

Both drivers compile the same pattern
`(\d+)\s([A-ZÄÖÜ])\S*\s(([A-Z]+[a-zäöüß]* ?){1,2})\D*(\d?).*`
and apply it with `re.match` (anchored at the start only).  The pattern is
embedded as a deterministic matcher; determinism of the backtracking engine on
this particular pattern is argued at `matchShortPattern`. -/

/-- `\d`: ASCII decimal digit (Python's `\d` additionally matches non-ASCII
Unicode digits, which no claim exercises). -/
def isPyDigit (c : Char) : Bool := '0' ≤ c && c ≤ '9'

/-- The class `[A-ZÄÖÜ]` (the course type letter). -/
def isTypeLetter (c : Char) : Bool := ('A' ≤ c && c ≤ 'Z') || c = 'Ä' || c = 'Ö' || c = 'Ü'

/-- The class `[A-Z]`. -/
def isUpperAZ (c : Char) : Bool := 'A' ≤ c && c ≤ 'Z'

/-- The class `[a-zäöüß]`. -/
def isLowerName (c : Char) : Bool :=
  ('a' ≤ c && c ≤ 'z') || c = 'ä' || c = 'ö' || c = 'ü' || c = 'ß'

/-- One unit of group 3: `[A-Z]+[a-zäöüß]* ?` (all greedy; the ` ?` is a literal
space).  Returns the consumed characters and the remaining input, or `none` when
no `[A-Z]` character stands at the current position. -/
def matchNameUnit (l : List Char) : Option (List Char × List Char) :=
  let ups := l.takeWhile isUpperAZ
  if ups.isEmpty then none
  else
    let r1 := l.dropWhile isUpperAZ
    let lows := r1.takeWhile isLowerName
    let r2 := r1.dropWhile isLowerName
    match r2 with
    | ' ' :: r3 => some (ups ++ lows ++ [' '], r3)
    | _ => some (ups ++ lows, r2)

/-- The capture groups used by `short_course_name` (groups 1, 2, 3, 5; group 4
is the inner repetition and is never read). -/
structure ShortNameGroups where
  g1 : List Char
  g2 : Char
  g3 : List Char
  g5 : List Char
  deriving DecidableEq, Repr

/-- `re.match` of `(\d+)\s([A-ZÄÖÜ])\S*\s(([A-Z]+[a-zäöüß]* ?){1,2})\D*(\d?).*`,
compiled to a deterministic function.  Why no backtracking of the regex engine
has to be modelled: a shorter `(\d+)` leaves a digit where `\s` must match, so
the maximal digit run is forced; `\S*` cannot cross a whitespace, so it ends
exactly at the first whitespace and only the maximal run puts a `\s` next; and
once one `[A-Z]+[a-zäöüß]* ?` unit has matched, the remainder `\D*(\d?).*` can
always match (every part may be empty), so the greedy choices inside the groups
are never revisited.  Group 5 therefore captures the first digit after group 3
(or nothing), and `.*` binds nothing. -/
def matchShortPattern (l : List Char) : Option ShortNameGroups :=
  let g1 := l.takeWhile isPyDigit
  if g1.isEmpty then none
  else
    match l.dropWhile isPyDigit with
    | [] => none
    | s1 :: r2 =>
      if isPySpace s1 then
        match r2 with
        | [] => none
        | c2 :: r3 =>
          if isTypeLetter c2 then
            match r3.dropWhile (fun c => !isPySpace c) with
            | [] => none
            | _ :: r4 =>
              match matchNameUnit r4 with
              | none => none
              | some (u1, r5) =>
                let p :=
                  match matchNameUnit r5 with
                  | some (u2, r6) => (u1 ++ u2, r6)
                  | none => (u1, r5)
                let r7 := p.2.dropWhile (fun c => !isPyDigit c)
                let g5 := match r7 with
                  | d :: _ => [d]
                  | [] => []
                some ⟨g1, c2, p.1, g5⟩
          else none
      else none

/-- The f-string `f"{group(1)} {group(2)} {group(3)}{group(5)}".strip()` both
drivers build in the match branch. -/
def buildShort (g : ShortNameGroups) : String :=
  ⟨pyStrip (g.g1 ++ [' '] ++ [g.g2] ++ [' '] ++ g.g3 ++ g.g5)⟩

/-- `short_course_name` of studip_rsync.py lines 146-157: compact identifier on
a match, sanitized full title as fallback. -/
def short_course_name_rsync (name : String) : String :=
  match matchShortPattern (clean_name name).data with
  | some g => buildShort g
  | none => clean_name name

/-- `short_course_name` of studip_sync.py lines 159-168: identical pattern and
match branch, but the non-match branch returns the Python constant `False`,
embedded as `none`. -/
def short_course_name_sync (name : String) : Option String :=
  match matchShortPattern (clean_name name).data with
  | some g => some (buildShort g)
  | none => none

/-- C5 counterexample: the title `"Seminar"` does not match the positional
pattern; strategy A (studip_rsync.py) falls back to the sanitized full title,
but strategy B's `short_course_name` (studip_sync.py line 168) returns the
failure value `False` (embedded as `none`), not the sanitized full title —
so the fallback does not hold "in both synchronization strategies". -/
theorem C5_counterexample :
    short_course_name_sync "Seminar" = none ∧
    short_course_name_sync "Seminar" ≠ some (clean_name "Seminar") ∧
    short_course_name_rsync "Seminar" = clean_name "Seminar" := by
  refine ⟨by decide, by decide, by decide⟩

/-- C5 (amended): for every course title whose sanitized form does not match the
positional short-name pattern, strategy A's `short_course_name` returns the
sanitized full title unchanged while strategy B's returns the failure value
`False` (`none`); for every title that matches, both return the compact
identifier assembled from the matched groups. -/
theorem C5_short_course_name_fallback (name : String) :
    (matchShortPattern (clean_name name).data = none →
      short_course_name_rsync name = clean_name name ∧
      short_course_name_sync name = none) ∧
    (∀ g, matchShortPattern (clean_name name).data = some g →
      short_course_name_rsync name = buildShort g ∧
      short_course_name_sync name = some (buildShort g)) := by
  constructor
  · intro h
    unfold short_course_name_rsync short_course_name_sync
    rw [h]
    exact ⟨rfl, rfl⟩
  · intro g h
    unfold short_course_name_rsync short_course_name_sync
    rw [h]
    exact ⟨rfl, rfl⟩

/-- Concrete check of C5 at the spec's example title, exercising both branches
of the amended statement. -/
theorem C5_short_course_name_fallback_witness :
    short_course_name_rsync "101 V Introduction to Systems 2" = "101 V Introduction 2" ∧
    short_course_name_sync "Seminar" = none := by
  constructor
  · have h := (C5_short_course_name_fallback "101 V Introduction to Systems 2").2
      ⟨"101".data, 'V', "Introduction ".data, "2".data⟩ (by decide)
    rw [h.1]
    decide
  · exact ((C5_short_course_name_fallback "Seminar").1 (by decide)).2

/-! ## ChangeDetector: is_file_new -/

/-- The staleness-relevant fields of a cleaned remote file entry
(`size` and `chdate` are produced by Python `int(...)` in
`check_and_cleanup_form_data`). -/
structure FileMeta where
  size : Int
  chdate : Int
  deriving DecidableEq, Repr

/-- What `is_file_new` observes about the local path: `none` when
`os.path.exists` is false, otherwise `int(os.path.getmtime(...))` and
`os.path.getsize(...)`. -/
structure LocalFile where
  mtime : Int
  size : Int
  deriving DecidableEq, Repr

/-- `is_file_new` (studip_rsync.py lines 226-250).  Python
`if not file["size"]` is true exactly for the integer `0` on the cleaned
entries (whose `size` is always an `int`). -/
def is_file_new (file : FileMeta) (localState : Option LocalFile) : Bool :=
  if file.size = 0 then false
  else
    match localState with
    | none => true
    | some lf =>
      if file.chdate > lf.mtime then true
      else if ¬ (file.size = lf.size) then true
      else false

/-- C2 counterexample: an entry whose reported byte size is `0` *does* carry a
size (cleanup guarantees every surviving entry an integer size), yet with no
local file present `is_file_new` returns `false` — the claim demands `true`
for every entry with a size when no file exists at the local path.  The code's
first guard `if not file["size"]` tests Python truthiness, which conflates
"size 0" with "no size". -/
theorem C2_counterexample : is_file_new ⟨0, 5⟩ none = false := by decide

/-- C2 (amended): `is_file_new` evaluates its rules in order, with the first
rule keyed on a *falsy* (zero) size rather than an absent one: a zero-size
entry yields `false` regardless of local state; a nonzero-size entry yields
`true` when no local file exists; otherwise it yields `true` iff the remote
change-timestamp strictly exceeds the local integer mtime or the remote size
differs from the local size, and `false` in all remaining cases. -/
theorem C2_is_file_new_rules (file : FileMeta) (localState : Option LocalFile) :
    (file.size = 0 → is_file_new file localState = false) ∧
    (file.size ≠ 0 → localState = none → is_file_new file localState = true) ∧
    (∀ lf, file.size ≠ 0 → localState = some lf →
      (is_file_new file localState = true ↔
        file.chdate > lf.mtime ∨ file.size ≠ lf.size)) := by
  refine ⟨?_, ?_, ?_⟩
  · intro h
    simp [is_file_new, h]
  · intro h hl
    simp [is_file_new, h, hl]
  · intro lf h hl
    subst hl
    simp only [is_file_new, if_neg h]
    by_cases h1 : file.chdate > lf.mtime
    · simp [h1]
    · by_cases h2 : file.size = lf.size
      · simp [h1, h2]
      · simp [h1, h2]

/-- Concrete check of C2 (amended): equal size with mtime at the change-time is
fresh; a missing local file is stale; a strictly newer remote change-time is
stale. -/
theorem C2_is_file_new_rules_witness :
    is_file_new ⟨100, 10⟩ (some ⟨10, 100⟩) = false ∧
    is_file_new ⟨100, 10⟩ none = true ∧
    is_file_new ⟨100, 11⟩ (some ⟨10, 100⟩) = true := by
  refine ⟨?_, ?_, ?_⟩
  · have h := (C2_is_file_new_rules ⟨100, 10⟩ (some ⟨10, 100⟩)).2.2 ⟨10, 100⟩
      (by decide) rfl
    rw [Bool.eq_false_iff]
    intro ht
    rcases h.mp ht with h1 | h1
    · exact absurd h1 (by decide)
    · exact h1 rfl
  · exact (C2_is_file_new_rules ⟨100, 10⟩ none).2.1 (by decide) rfl
  · exact ((C2_is_file_new_rules ⟨100, 11⟩ (some ⟨10, 100⟩)).2.2 ⟨10, 100⟩
      (by decide) rfl).mpr (Or.inl (by decide))

/-! ## VersionedWriter: the rename-aside placement block -/

/-- Flat model of the destination filesystem: each path maps to the content
stored there, `none` when nothing exists at that path. -/
def FileSystem := String → Option String

/-- The backup sibling name `destinationPath + "_" + captureTimestamp + ".old"`
(studip_rsync.py lines 327-329; the timestamp string is produced externally by
`datetime.strftime(.., "%Y-%m-%d_%H+%M+%S")` and enters here as a value). -/
def oldPath (dest ts : String) : String := dest ++ "_" ++ ts ++ ".old"

/-- The placement block of `CourseRSync.download_recursive`
(studip_rsync.py lines 325-338): if something exists at `dest`, rename it to
`oldPath dest ts` (`os.rename`, which on POSIX silently replaces an existing
target), else create parent directories; re-check that `dest` is vacant,
raising `DownloadError` otherwise; finally copy the staged content to `dest`
(`shutil.copyfile`). -/
def renameAside (fs : FileSystem) (dest ts : String) : FileSystem :=
  match fs dest with
  | some old => fun p =>
      if p = oldPath dest ts then some old
      else if p = dest then none
      else fs p
  | none => fs

def place (fs : FileSystem) (staged : String) (dest ts : String) :
    Except String FileSystem :=
  match renameAside fs dest ts dest with
  | some _ => Except.error "File exists already, even after moving it away"
  | none => Except.ok (fun p => if p = dest then some staged else renameAside fs dest ts p)

theorem oldPath_ne_dest (dest ts : String) : oldPath dest ts ≠ dest := by
  intro h
  have hlen := congrArg String.length h
  simp only [oldPath, String.length_append] at hlen
  have h1 : ("_" : String).length = 1 := rfl
  have h2 : (".old" : String).length = 4 := rfl
  omega

theorem oldPath_inj (dest ts1 ts2 : String) (h : oldPath dest ts1 = oldPath dest ts2) :
    ts1 = ts2 := by
  have hd := congrArg String.data h
  simp only [oldPath, String.data_append, List.append_assoc] at hd
  have h1 := List.append_cancel_left hd
  have h2 := List.append_cancel_left h1
  have h3 := List.append_cancel_right h2
  cases ts1
  cases ts2
  exact congrArg String.mk h3

theorem renameAside_occupied (fs : FileSystem) (dest ts c0 : String)
    (h0 : fs dest = some c0) :
    renameAside fs dest ts = fun p =>
      if p = oldPath dest ts then some c0
      else if p = dest then none
      else fs p := by
  unfold renameAside
  rw [h0]

theorem place_occupied (fs : FileSystem) (staged dest ts c0 : String)
    (h0 : fs dest = some c0) :
    place fs staged dest ts = Except.ok (fun p =>
      if p = dest then some staged
      else if p = oldPath dest ts then some c0
      else fs p) := by
  have hne : ¬ (dest = oldPath dest ts) := fun h => (oldPath_ne_dest dest ts) h.symm
  have hr := renameAside_occupied fs dest ts c0 h0
  unfold place
  rw [hr]
  have hscrut : ((fun p =>
      if p = oldPath dest ts then some c0
      else if p = dest then none
      else fs p) dest) = (none : Option String) := by
    simp [hne]
  rw [hscrut]
  show Except.ok _ = Except.ok _
  congr 1
  funext p
  by_cases hp : p = dest
  · simp [hp, hne]
  · by_cases hq : p = oldPath dest ts <;> simp [hp, hq]

/-- C1: placing staged content at an occupied destination first renames the
existing content aside to the `.old` sibling and only then writes the staged
content; the prior content is never deleted, the destination afterwards holds
exactly the staged content, and two successive placements with distinct capture
timestamps yield two distinct `.old` siblings with no data loss (all other
paths are untouched). -/
theorem C1_place_versioned (fs : FileSystem) (c0 staged1 staged2 dest ts1 ts2 : String)
    (h0 : fs dest = some c0) (hts : ts1 ≠ ts2) :
    ∃ fs1 fs2,
      place fs staged1 dest ts1 = Except.ok fs1 ∧
      fs1 dest = some staged1 ∧
      fs1 (oldPath dest ts1) = some c0 ∧
      place fs1 staged2 dest ts2 = Except.ok fs2 ∧
      fs2 dest = some staged2 ∧
      fs2 (oldPath dest ts2) = some staged1 ∧
      fs2 (oldPath dest ts1) = some c0 ∧
      oldPath dest ts1 ≠ oldPath dest ts2 ∧
      (∀ p, p ≠ dest → p ≠ oldPath dest ts1 → p ≠ oldPath dest ts2 → fs2 p = fs p) := by
  have hold : oldPath dest ts1 ≠ oldPath dest ts2 := fun h => hts (oldPath_inj dest ts1 ts2 h)
  have hne1 : oldPath dest ts1 ≠ dest := oldPath_ne_dest dest ts1
  have hne2 : oldPath dest ts2 ≠ dest := oldPath_ne_dest dest ts2
  refine ⟨fun p =>
            if p = dest then some staged1
            else if p = oldPath dest ts1 then some c0
            else fs p,
          fun p =>
            if p = dest then some staged2
            else if p = oldPath dest ts2 then some staged1
            else if p = dest then some staged1
            else if p = oldPath dest ts1 then some c0
            else fs p,
          place_occupied fs staged1 dest ts1 c0 h0, ?_, ?_, ?_, ?_, ?_, ?_, hold, ?_⟩
  · simp
  · simp [hne1]
  · exact place_occupied _ staged2 dest ts2 staged1 (by simp)
  · simp
  · simp [hne2]
  · simp [hne1, hold]
  · intro p hp h1 h2
    simp [hp, h1, h2]

/-- Concrete check of C1: two successive placements at an occupied path, with
the original content surviving under the first `.old` sibling and the first
staged content under the second. -/
theorem C1_place_versioned_witness :
    ((place (fun p => if p = "n" then some "v0" else none) "v1" "n" "t1").map
        (fun g => (g "n", g (oldPath "n" "t1")))) =
      Except.ok (some "v1", some "v0") := by
  obtain ⟨fs1, fs2, h1, h2, h3, _⟩ :=
    C1_place_versioned (fun p => if p = "n" then some "v0" else none)
      "v0" "v1" "v2" "n" "t1" "t2" (by decide) (by decide)
  rw [h1]
  simp [Except.map, h2, h3]

/-! ## Listing cleanup: check_and_cleanup_form_data -/

/-- Python exception classes that reach the embedded drivers. -/
inductive PyErr
  | parserError
  | downloadError
  | extractionError
  | missingFeature
  | keyError
  | typeError
  | osError
  deriving DecidableEq, Repr

/-- A dynamically-typed metadata value of a listing record. -/
inductive JVal
  | jint (n : Int)
  | jstr (s : String)
  | jbool (b : Bool)
  | jnull
  deriving DecidableEq, Repr

def digitsToNat (l : List Char) : Nat :=
  l.foldl (fun a c => 10 * a + (c.toNat - '0'.toNat)) 0

/-- Python `int(v)`: identity on ints, `int(True) = 1`, decimal string parsing
with surrounding whitespace and an optional sign (digit-group underscores are
not modelled; no claim feeds them), and a `TypeError`/`ValueError` (here
`none`) on `None` and non-numeric strings. -/
def pyInt : JVal → Option Int
  | .jint n => some n
  | .jbool b => some (if b then 1 else 0)
  | .jnull => none
  | .jstr s =>
    match pyStrip s.data with
    | '-' :: ds => if ds ≠ [] ∧ ds.all isPyDigit then some (-(digitsToNat ds : Int)) else none
    | '+' :: ds => if ds ≠ [] ∧ ds.all isPyDigit then some (digitsToNat ds : Int) else none
    | ds => if ds ≠ [] ∧ ds.all isPyDigit then some (digitsToNat ds : Int) else none

/-- The characters of Python `string.hexdigits`. -/
def isHexDigitPy (c : Char) : Bool :=
  ('0' ≤ c && c ≤ '9') || ('a' ≤ c && c ≤ 'f') || ('A' ≤ c && c ≤ 'F')

/-- A raw file record of a folder listing: every key may be absent.
`download_url` distinguishes "key absent" (`none`) from "key present with value
`None`" (`some none`). -/
structure RawFile where
  id : Option String
  name : Option String
  size : Option JVal
  storage : Option String
  icon : Option String
  is_downloadable : Option Bool
  chdate : Option JVal
  download_url : Option (Option String)
  deriving DecidableEq, Repr

structure RawFolder where
  id : Option String
  name : Option String
  deriving DecidableEq, Repr

/-- A cleaned file entry (`new_file_data` of studip_rsync.py lines 183-191).
`size` and `chdate` are integers by construction, as the claimed invariant
states; `download_url = none` models the *absence* of the key. -/
structure CleanFile where
  name : String
  id : String
  size : Int
  chdate : Int
  download_url : Option (Option String)
  deriving DecidableEq, Repr

structure CleanFolder where
  name : String
  id : String
  deriving DecidableEq, Repr

/-- Per-entry body of the file loop of `check_and_cleanup_form_data`
(studip_rsync.py lines 161-196).  `.ok none` is a silent `continue`;
`.error ()` is any exception escaping the body, which the enclosing
`except Exception` turns into a `ParserError` for the whole listing.  The
skip paths format `form_data["name"]` into their log line, so a missing name
raises a `KeyError` there.  Unicode NFKC normalization of the name (external
`unicodedata` table lookup) is modelled as the identity; no claim depends on
it. -/
def cleanupFile (use_api : Bool) (f : RawFile) : Except Unit (Option CleanFile) :=
  match f.id with
  | none =>
    match f.name with
    | none => .error ()
    | some _ => .ok none
  | some fid =>
    if fid.data.all isHexDigitPy then
      if f.size = none ∨ f.size = some .jnull ∨ f.storage = some "url" ∨
          f.icon = some "link-extern" then
        match f.name with
        | none => .error ()
        | some _ => .ok none
      else if use_api = true ∧ f.is_downloadable = some false then
        match f.name with
        | none => .error ()
        | some _ => .ok none
      else
        match f.name with
        | none => .error ()
        | some nm =>
          match f.size with
          | none => .error ()
          | some sv =>
            match pyInt sv with
            | none => .error ()
            | some sz =>
              match f.chdate with
              | none => .error ()
              | some cv =>
                match pyInt cv with
                | none => .error ()
                | some cd =>
                  if use_api then .ok (some ⟨clean_name nm, fid, sz, cd, none⟩)
                  else
                    match f.download_url with
                    | none => .error ()
                    | some u => .ok (some ⟨clean_name nm, fid, sz, cd, some u⟩)
    else .error ()

/-- Per-entry body of the folder loop (studip_rsync.py lines 199-214).  The
missing-id skip logs a constant string, so it never raises. -/
def cleanupFolder (f : RawFolder) : Except Unit (Option CleanFolder) :=
  match f.id with
  | none => .ok none
  | some fid =>
    if fid.data.all isHexDigitPy then
      match f.name with
      | none => .error ()
      | some nm => .ok (some ⟨clean_name nm, fid⟩)
    else .error ()

def cleanupList {α β : Type} (f : α → Except Unit (Option β)) : List α → Except Unit (List β)
  | [] => .ok []
  | x :: xs =>
    match f x with
    | .error () => .error ()
    | .ok none => cleanupList f xs
    | .ok (some y) =>
      match cleanupList f xs with
      | .error () => .error ()
      | .ok ys => .ok (y :: ys)

/-- `check_and_cleanup_form_data` (studip_rsync.py lines 159-216): any
exception inside a per-entry body aborts the whole listing with a
`ParserError`. -/
def check_and_cleanup_form_data (files : List RawFile) (folders : List RawFolder)
    (use_api : Bool) : Except PyErr (List CleanFile × List CleanFolder) :=
  match cleanupList (cleanupFile use_api) files with
  | .error () => .error .parserError
  | .ok fs =>
    match cleanupList cleanupFolder folders with
    | .error () => .error .parserError
    | .ok ds => .ok (fs, ds)

theorem cleanupFile_ok_some (u : Bool) (f : RawFile) (cf : CleanFile)
    (h : cleanupFile u f = Except.ok (some cf)) :
    f.id = some cf.id ∧ cf.id.data.all isHexDigitPy = true ∧
    (u = true → cf.download_url = none) := by
  unfold cleanupFile at h
  split at h
  · split at h <;> simp at h
  · rename_i fid heq
    split at h
    · rename_i hex
      split at h
      · split at h <;> simp at h
      · split at h
        · split at h <;> simp at h
        · split at h
          · simp at h
          · rename_i nm hnm
            split at h
            · simp at h
            · split at h
              · simp at h
              · split at h
                · simp at h
                · split at h
                  · simp at h
                  · split at h
                    · rename_i hu
                      rw [Except.ok.injEq, Option.some.injEq] at h
                      subst h
                      exact ⟨heq, hex, fun _ => rfl⟩
                    · rename_i hu
                      split at h
                      · simp at h
                      · rw [Except.ok.injEq, Option.some.injEq] at h
                        subst h
                        refine ⟨heq, hex, fun hh => absurd hh hu⟩
    · simp at h

theorem cleanupList_mem {α β : Type} (f : α → Except Unit (Option β)) :
    ∀ (xs : List α) (ys : List β), cleanupList f xs = Except.ok ys →
      ∀ y ∈ ys, ∃ x ∈ xs, f x = Except.ok (some y) := by
  intro xs
  induction xs with
  | nil =>
    intro ys h y hy
    simp only [cleanupList, Except.ok.injEq] at h
    subst h
    cases hy
  | cons a as ih =>
    intro ys h y hy
    cases hfa : f a with
    | error e =>
      cases e
      simp only [cleanupList, hfa] at h
      simp at h
    | ok o =>
      cases o with
      | none =>
        simp only [cleanupList, hfa] at h
        obtain ⟨x, hx, hfx⟩ := ih ys h y hy
        exact ⟨x, List.mem_cons_of_mem a hx, hfx⟩
      | some b =>
        simp only [cleanupList, hfa] at h
        cases hrec : cleanupList f as with
        | error e =>
          cases e
          rw [hrec] at h
          simp at h
        | ok ys' =>
          rw [hrec] at h
          rw [Except.ok.injEq] at h
          subst h
          rcases List.mem_cons.mp hy with hy1 | hy2
          · exact ⟨a, List.mem_cons_self a as, by rw [hfa, hy1]⟩
          · obtain ⟨x, hx, hfx⟩ := ih ys' hrec y hy2
            exact ⟨x, List.mem_cons_of_mem a hx, hfx⟩

theorem cleanupList_error_of_mem {α β : Type} (f : α → Except Unit (Option β)) :
    ∀ (xs : List α) (x : α), x ∈ xs → f x = Except.error () →
      cleanupList f xs = Except.error () := by
  intro xs
  induction xs with
  | nil => intro x hx; cases hx
  | cons a as ih =>
    intro x hx hfx
    rcases List.mem_cons.mp hx with h1 | h2
    · subst h1
      simp only [cleanupList, hfx]
    · cases hfa : f a with
      | error e => cases e; simp only [cleanupList, hfa]
      | ok o =>
        cases o with
        | none =>
          simp only [cleanupList, hfa]
          exact ih x h2 hfx
        | some b =>
          simp only [cleanupList, hfa]
          rw [ih x h2 hfx]

theorem cleanup_output_api (use_api : Bool) (files : List RawFile)
    (folders : List RawFolder) (cfs : List CleanFile) (cds : List CleanFolder)
    (h : check_and_cleanup_form_data files folders use_api = Except.ok (cfs, cds)) :
    ∀ cf ∈ cfs, cf.id.data.all isHexDigitPy = true ∧
      (use_api = true → cf.download_url = none) := by
  intro cf hcf
  cases hf : cleanupList (cleanupFile use_api) files with
  | error e => cases e; simp [check_and_cleanup_form_data, hf] at h
  | ok fs' =>
    cases hd : cleanupList cleanupFolder folders with
    | error e => cases e; simp [check_and_cleanup_form_data, hf, hd] at h
    | ok ds' =>
      simp only [check_and_cleanup_form_data, hf, hd, Except.ok.injEq, Prod.mk.injEq] at h
      obtain ⟨h1, h2⟩ := h
      subst h1
      obtain ⟨x, hx, hfx⟩ := cleanupList_mem _ files _ hf cf hcf
      have hm := cleanupFile_ok_some use_api x cf hfx
      exact ⟨hm.2.1, hm.2.2⟩

/-- C9 counterexample: a file entry carrying no identifier *and* no name is not
silently skipped — the skip path formats `form_data["name"]` into its log line,
the `KeyError` is caught by `except Exception`, and the whole listing fails
with a `ParserError` (studip_rsync.py lines 163-165 and 194-196) — while the
claim says entries missing an identifier are skipped per-entry without
raising. -/
theorem C9_counterexample :
    check_and_cleanup_form_data
      [⟨none, none, none, none, none, none, none, none⟩] [] true =
      Except.error PyErr.parserError := by rfl

/-- C9 (amended): listing cleanup raises a parsing failure for the entire
listing whenever any entry has a non-hexadecimal identifier or a malformed
(non-integer-convertible) size or change-time field; entries missing an
identifier, external links, entries lacking a size, and non-downloadable
entries are silently skipped per-entry *provided the entry carries a name*
(the skip path logs the name, so an entry missing both identifier and name
raises the listing-level failure instead); folder entries missing an
identifier are skipped unconditionally (their log line is constant); and
every file entry in the cleaned output has a hexadecimal identifier (its
integer size and change-time hold by construction of `CleanFile`). -/
theorem C9_cleanup_validation (use_api : Bool) :
    (∀ f : RawFile, f.id = none → f.name ≠ none → cleanupFile use_api f = Except.ok none) ∧
    (∀ f : RawFile, ∀ fid, f.id = some fid → ¬ fid.data.all isHexDigitPy = true →
      cleanupFile use_api f = Except.error ()) ∧
    (∀ f : RawFile, ∀ fid, f.id = some fid → fid.data.all isHexDigitPy = true →
      f.name ≠ none →
      (f.size = none ∨ f.size = some .jnull ∨ f.storage = some "url" ∨
        f.icon = some "link-extern") →
      cleanupFile use_api f = Except.ok none) ∧
    (∀ f : RawFile, ∀ fid, f.id = some fid → fid.data.all isHexDigitPy = true →
      f.name ≠ none → use_api = true → f.is_downloadable = some false →
      ¬ (f.size = none ∨ f.size = some .jnull ∨ f.storage = some "url" ∨
        f.icon = some "link-extern") →
      cleanupFile use_api f = Except.ok none) ∧
    (∀ f : RawFile, ∀ fid sv, f.id = some fid → fid.data.all isHexDigitPy = true →
      f.size = some sv → pyInt sv = none →
      ¬ (f.size = none ∨ f.size = some .jnull ∨ f.storage = some "url" ∨
        f.icon = some "link-extern") →
      ¬ (use_api = true ∧ f.is_downloadable = some false) →
      cleanupFile use_api f = Except.error ()) ∧
    (∀ f : RawFile, ∀ fid, f.id = some fid → fid.data.all isHexDigitPy = true →
      (f.chdate = none ∨ ∃ cv, f.chdate = some cv ∧ pyInt cv = none) →
      ¬ (f.size = none ∨ f.size = some .jnull ∨ f.storage = some "url" ∨
        f.icon = some "link-extern") →
      ¬ (use_api = true ∧ f.is_downloadable = some false) →
      cleanupFile use_api f = Except.error ()) ∧
    (∀ g : RawFolder, g.id = none → cleanupFolder g = Except.ok none) ∧
    (∀ g : RawFolder, ∀ gid, g.id = some gid → ¬ gid.data.all isHexDigitPy = true →
      cleanupFolder g = Except.error ()) ∧
    (∀ files folders f, f ∈ files → cleanupFile use_api f = Except.error () →
      check_and_cleanup_form_data files folders use_api = Except.error .parserError) ∧
    (∀ files folders cfs cds,
      check_and_cleanup_form_data files folders use_api = Except.ok (cfs, cds) →
      ∀ cf ∈ cfs, cf.id.data.all isHexDigitPy = true) := by
  refine ⟨?_, ?_, ?_, ?_, ?_, ?_, ?_, ?_, ?_, ?_⟩
  · intro f hid hnm
    obtain ⟨oid, onm, _, _, _, _, _, _⟩ := f
    cases onm with
    | none => exact absurd rfl hnm
    | some nm =>
      simp only at hid
      subst hid
      rfl
  · intro f fid hid hex
    obtain ⟨oid, _, _, _, _, _, _, _⟩ := f
    simp only at hid
    subst hid
    simp [cleanupFile, hex]
  · intro f fid hid hex hnm huns
    obtain ⟨oid, onm, osz, ost, oic, odl, ocd, odu⟩ := f
    simp only at hid hex huns
    subst hid
    cases onm with
    | none => exact absurd rfl hnm
    | some nm => simp [cleanupFile, hex, huns]
  · intro f fid hid hex hnm hu hdl huns
    obtain ⟨oid, onm, osz, ost, oic, odl, ocd, odu⟩ := f
    simp only at hid hex hdl huns
    subst hid
    subst hu
    cases onm with
    | none => exact absurd rfl hnm
    | some nm => simp [cleanupFile, hex, huns, hdl]
  · intro f fid sv hid hex hsz hint huns hdl
    obtain ⟨oid, onm, osz, ost, oic, odl, ocd, odu⟩ := f
    simp only at hid hex hsz huns hdl
    subst hid
    subst hsz
    have h2 : ¬ sv = JVal.jnull := fun hh => huns (Or.inr (Or.inl (by rw [hh])))
    have h3 : ¬ ost = some "url" := fun hh => huns (Or.inr (Or.inr (Or.inl hh)))
    have h4 : ¬ oic = some "link-extern" := fun hh => huns (Or.inr (Or.inr (Or.inr hh)))
    cases onm with
    | none => simp [cleanupFile, hex, h2, h3, h4, hdl]
    | some nm => simp [cleanupFile, hex, h2, h3, h4, hdl, hint]
  · intro f fid hid hex hch huns hdl
    obtain ⟨oid, onm, osz, ost, oic, odl, ocd, odu⟩ := f
    simp only at hid hex hch huns hdl
    subst hid
    have h1 : ¬ osz = none := fun hh => huns (Or.inl hh)
    have h2 : ¬ osz = some JVal.jnull := fun hh => huns (Or.inr (Or.inl hh))
    have h3 : ¬ ost = some "url" := fun hh => huns (Or.inr (Or.inr (Or.inl hh)))
    have h4 : ¬ oic = some "link-extern" := fun hh => huns (Or.inr (Or.inr (Or.inr hh)))
    cases onm with
    | none => simp [cleanupFile, hex, h1, h2, h3, h4, hdl]
    | some nm =>
      cases osz with
      | none => exact absurd rfl h1
      | some sv =>
        have h5 : ¬ sv = JVal.jnull := fun hh => h2 (by rw [hh])
        cases hint : pyInt sv with
        | none => simp [cleanupFile, hex, h5, h3, h4, hdl, hint]
        | some sz =>
          rcases hch with hch | ⟨cv, hcv, hcv2⟩
          · subst hch
            simp [cleanupFile, hex, h5, h3, h4, hdl, hint]
          · subst hcv
            simp [cleanupFile, hex, h5, h3, h4, hdl, hint, hcv2]
  · intro g hid
    obtain ⟨oid, onm⟩ := g
    simp only at hid
    subst hid
    rfl
  · intro g gid hid hex
    obtain ⟨oid, onm⟩ := g
    simp only at hid
    subst hid
    simp [cleanupFolder, hex]
  · intro files folders f hf herr
    have h1 := cleanupList_error_of_mem (cleanupFile use_api) files f hf herr
    simp [check_and_cleanup_form_data, h1]
  · intro files folders cfs cds h cf hcf
    exact (cleanup_output_api use_api files folders cfs cds h cf hcf).1

/-- Concrete check of C9 (amended): a nameless-id-less entry aside, a file
entry without an identifier but with a name is skipped; a non-hexadecimal
identifier fails the listing; a well-formed entry survives with its
hexadecimal identifier. -/
theorem C9_cleanup_validation_witness :
    cleanupFile true ⟨none, some "a.pdf", none, none, none, none, none, none⟩ =
      Except.ok none ∧
    check_and_cleanup_form_data
      [⟨some "xyz!", some "a.pdf", some (.jint 3), none, none, none, some (.jint 5), none⟩]
      [] true = Except.error PyErr.parserError ∧
    cleanupFile true
      ⟨some "ab12", some "a.pdf", some (.jint 3), none, none, none, some (.jint 5), none⟩ =
      Except.ok (some ⟨"a.pdf", "ab12", 3, 5, none⟩) := by
  refine ⟨?_, ?_, by rfl⟩
  · exact (C9_cleanup_validation true).1 ⟨none, some "a.pdf", none, none, none, none, none, none⟩
      rfl (by simp)
  · exact (C9_cleanup_validation true).2.2.2.2.2.2.2.2.1
      [⟨some "xyz!", some "a.pdf", some (.jint 3), none, none, none, some (.jint 5), none⟩]
      [] ⟨some "xyz!", some "a.pdf", some (.jint 3), none, none, none, some (.jint 5), none⟩
      (List.mem_singleton.mpr rfl)
      ((C9_cleanup_validation true).2.1
        ⟨some "xyz!", some "a.pdf", some (.jint 3), none, none, none, some (.jint 5), none⟩
        "xyz!" rfl (by decide))

/-! ## RecursiveTreeSync: the per-file loop of download_recursive -/

/-- The file loop of `CourseRSync.download_recursive` (studip_rsync.py lines
302-341): each cleaned entry is processed by first reading
`file_data["download_url"]` (a `KeyError` when cleanup did not add the key),
skipping entries whose value is `None`, computing the destination path, and
consulting `is_file_new`; a stale entry goes through the download / size-check
/ place step, abstracted as `act` (external Session transfer plus the
placement block modelled by `place`). -/
def processFiles (localState : String → Option LocalFile) (folderAbs : String)
    (act : CleanFile → Except PyErr Unit) : List CleanFile → Except PyErr Unit
  | [] => Except.ok ()
  | fd :: rest =>
    match fd.download_url with
    | none => Except.error .keyError
    | some none => processFiles localState folderAbs act rest
    | some (some _) =>
      if is_file_new ⟨fd.size, fd.chdate⟩ (localState (folderAbs ++ "/" ++ fd.name)) then
        match act fd with
        | .error e => Except.error e
        | .ok () => processFiles localState folderAbs act rest
      else processFiles localState folderAbs act rest

/-- C4: with the API variant enabled (`use_api = true`), every file entry
surviving cleanup lacks the `download_url` key, yet the per-file loop reads
`file_data["download_url"]` unconditionally; hence for every folder listing
whose cleanup output contains at least one file entry the traversal raises an
uncaught `KeyError` — for *every* local state and every download behaviour,
i.e. before any staleness check, download or placement. -/
theorem C4_api_keyerror (files : List RawFile) (folders : List RawFolder)
    (cfs : List CleanFile) (cds : List CleanFolder)
    (h : check_and_cleanup_form_data files folders true = Except.ok (cfs, cds))
    (hne : cfs ≠ []) (localState : String → Option LocalFile) (folderAbs : String)
    (act : CleanFile → Except PyErr Unit) :
    processFiles localState folderAbs act cfs = Except.error .keyError := by
  cases cfs with
  | nil => exact absurd rfl hne
  | cons c rest =>
    have hc := (cleanup_output_api true files folders (c :: rest) cds h c
      (List.mem_cons_self c rest)).2 rfl
    simp [processFiles, hc]

/-- Concrete check of C4: a one-entry listing cleaned in API mode makes the
loop fail with `KeyError` immediately. -/
theorem C4_api_keyerror_witness :
    processFiles (fun _ => none) "root" (fun _ => Except.ok ())
      [⟨"a.pdf", "ab12", 3, 5, none⟩] = Except.error PyErr.keyError := by
  exact C4_api_keyerror
    [⟨some "ab12", some "a.pdf", some (.jint 3), none, none, none, some (.jint 5), none⟩]
    [] [⟨"a.pdf", "ab12", 3, 5, none⟩] [] (by rfl) (by simp)
    (fun _ => none) "root" (fun _ => Except.ok ())

/-! ## ArchiveSync: Extractor -/

/-- A directory tree: what an archive extracts to, and what the cleanup steps
rewrite.  A real directory has uniquely named entries; nothing below relies on
uniqueness except where a hypothesis states it. -/
inductive FsTree
  | file (name : String)
  | dir (name : String) (children : List FsTree)

def FsTree.name : FsTree → String
  | .file n => n
  | .dir n _ => n

def FsTree.isDir : FsTree → Bool
  | .file _ => false
  | .dir _ _ => true

theorem FsTree.name_file (n : String) : FsTree.name (FsTree.file n) = n := rfl

theorem FsTree.name_dir (n : String) (cs : List FsTree) :
    FsTree.name (FsTree.dir n cs) = n := rfl

/-- `glob.iglob(dir, "*")` does not match names starting with a dot. -/
def hiddenName (n : String) : Bool :=
  match n.data with
  | '.' :: _ => true
  | _ => false

/-- `Extractor.remove_filelist` (studip_sync.py lines 207-211): delete the
top-level *file* `archive_filelist.csv` when present (`os.path.isfile` guards
it, so a directory of that name stays). -/
def remove_filelist (cs : List FsTree) : List FsTree :=
  cs.filter fun t =>
    match t with
    | .file n => !(n == "archive_filelist.csv")
    | .dir _ _ => true

/-- `Extractor.remove_intermediary_dir` (studip_sync.py lines 189-199): when
the listing holds exactly one subdirectory, move its (non-hidden, `glob "*"`)
children up with `shutil.move` — which raises when the destination name
already exists — and `os.rmdir` the wrapper — which raises when hidden
children were left behind.  Either raise is an uncaught `shutil.Error`/
`OSError` (`.error ()`); the `except` in `extract` only catches
`BadZipFile`. -/
def remove_intermediary_dir (cs : List FsTree) : Except Unit (List FsTree) :=
  match cs.filter FsTree.isDir with
  | [FsTree.dir _dn dcs] =>
    let visible := dcs.filter (fun t => !hiddenName (FsTree.name t))
    if visible.any (fun c => cs.any (fun t => FsTree.name t == FsTree.name c)) then
      Except.error ()
    else if dcs.any (fun t => hiddenName (FsTree.name t)) then
      Except.error ()
    else
      Except.ok (cs.filter (fun t => !(FsTree.isDir t)) ++ visible)
  | _ => Except.ok cs

/-- `Extractor.remove_empty_dirs` (studip_sync.py lines 201-205): `os.walk`
(top-down) visits a parent before its children, and `os.rmdir(root)` fires only
when `root` has no entries at visit time; children are removed strictly after
their parent was examined, so exactly the directories that are empty in the
*input* tree are removed.  This recursion compiles that traversal (the
destination root itself is handled in `extract`). -/
def sweepEmptyDirs : List FsTree → List FsTree
  | [] => []
  | .file n :: rest => .file n :: sweepEmptyDirs rest
  | .dir n cs :: rest =>
    if cs.isEmpty then sweepEmptyDirs rest
    else .dir n (sweepEmptyDirs cs) :: sweepEmptyDirs rest

/-- The content handed to `Extractor.extract`: either a malformed container
(`zipfile.BadZipFile`) or the tree the archive extracts to. -/
inductive Archive
  | bad
  | good (children : List FsTree)

/-- `Extractor.extract` (studip_sync.py lines 213-225): extract, then — with
`cleanup` — remove the manifest, flatten a single wrapper, sweep empty
directories.  `.ok none` models `os.walk`'s removal of the destination
directory itself when extraction produced nothing.  A bad container raises
`ExtractionError`; a cleanup `shutil`/`OSError` failure propagates
uncaught. -/
def extract (a : Archive) (cleanup : Bool) : Except PyErr (Option (List FsTree)) :=
  match a with
  | .bad => Except.error .extractionError
  | .good cs =>
    if cleanup then
      match remove_intermediary_dir (remove_filelist cs) with
      | .error () => Except.error .osError
      | .ok cs2 =>
        if cs2.isEmpty then Except.ok none
        else Except.ok (some (sweepEmptyDirs cs2))
    else Except.ok (some cs)

/-- Some directory of the tree (at any depth) has no entries. -/
def containsEmptyDir : List FsTree → Bool
  | [] => false
  | .file _ :: rest => containsEmptyDir rest
  | .dir _ cs :: rest => (cs.isEmpty || containsEmptyDir cs) || containsEmptyDir rest

/-- Some file exists somewhere in the tree. -/
def hasFile : List FsTree → Bool
  | [] => false
  | .file _ :: _ => true
  | .dir _ cs :: rest => hasFile cs || hasFile rest

/-- Every file-free directory of the tree is *directly* empty (its emptiness is
not hidden behind a chain of empty directories). -/
def shallowEmpties : List FsTree → Bool
  | [] => true
  | .file _ :: rest => shallowEmpties rest
  | .dir _ cs :: rest =>
    (hasFile cs || cs.isEmpty) && shallowEmpties cs && shallowEmpties rest

theorem hasFile_sweep (l : List FsTree) : hasFile (sweepEmptyDirs l) = hasFile l := by
  induction l using sweepEmptyDirs.induct with
  | case1 => simp [sweepEmptyDirs]
  | case2 n rest ih => simp [sweepEmptyDirs, hasFile, ih]
  | case3 n cs rest hemp ih =>
    cases cs with
    | cons a as => simp [List.isEmpty] at hemp
    | nil => simp [sweepEmptyDirs, hasFile, hemp, ih]
  | case4 n cs rest hemp ih1 ih2 =>
    simp [sweepEmptyDirs, hasFile, hemp, ih1, ih2]

theorem sweep_ne_nil_of_hasFile (l : List FsTree) (h : hasFile l = true) :
    (sweepEmptyDirs l).isEmpty = false := by
  cases hs : sweepEmptyDirs l with
  | cons a as => rfl
  | nil =>
    have := hasFile_sweep l
    rw [hs] at this
    rw [h] at this
    exact absurd this.symm (by simp [hasFile])

theorem sweep_no_empties (l : List FsTree) (h : shallowEmpties l = true) :
    containsEmptyDir (sweepEmptyDirs l) = false := by
  induction l using sweepEmptyDirs.induct with
  | case1 => simp [sweepEmptyDirs, containsEmptyDir]
  | case2 n rest ih =>
    simp only [shallowEmpties] at h
    simp [sweepEmptyDirs, containsEmptyDir, ih h]
  | case3 n cs rest hemp ih =>
    simp only [shallowEmpties, Bool.and_eq_true] at h
    simp [sweepEmptyDirs, hemp, ih h.2]
  | case4 n cs rest hemp ih1 ih2 =>
    simp only [shallowEmpties, Bool.and_eq_true] at h
    have hfile : hasFile cs = true := by
      rcases (by simpa using h.1.1 : hasFile cs = true ∨ cs.isEmpty = true) with h1 | h1
      · exact h1
      · exact absurd h1 hemp
    simp [sweepEmptyDirs, hemp, containsEmptyDir, ih1 h.1.2, ih2 h.2,
      sweep_ne_nil_of_hasFile cs hfile]

/-- C8 counterexample: an archive whose wrapper holds a file and a directory
`a` that contains only an empty directory `b`.  The wrapper is flattened and
`b` (empty at visit time) is removed, but `a` — emptied by that removal,
*after* the top-down walk has already examined it — survives: an empty
directory remains in the extracted tree, refuting "afterwards no empty
directory (at any nesting depth) remains". -/
theorem C8_counterexample :
    extract (Archive.good [FsTree.dir "w" [FsTree.file "f",
        FsTree.dir "a" [FsTree.dir "b" []]]]) true =
      Except.ok (some [FsTree.file "f", FsTree.dir "a" []]) ∧
    containsEmptyDir [FsTree.file "f", FsTree.dir "a" []] = true := by
  constructor
  · simp [extract, remove_filelist, remove_intermediary_dir, FsTree.isDir, FsTree.name,
      hiddenName, sweepEmptyDirs, List.filter]
  · simp [containsEmptyDir]

/-- C8 (amended): for every successfully extracted archive, cleanup removes the
top-level housekeeping manifest if present and flattens a single top-level
wrapper directory (moving its children up and deleting the wrapper); the
empty-directory pass then removes exactly the directories that are empty when
the top-down walk visits them, so a directory emptied by the pass itself
survives — no empty directory remains whenever every file-free directory of
the flattened tree is directly empty (`shallowEmpties`). -/
theorem C8_extract_cleanup (cs : List FsTree) :
    (∀ t ∈ remove_filelist cs, t ≠ FsTree.file "archive_filelist.csv") ∧
    (∀ l, shallowEmpties l = true → containsEmptyDir (sweepEmptyDirs l) = false) ∧
    (∀ dn dcs, remove_filelist cs = [FsTree.dir dn dcs] →
      dcs.all (fun t => !hiddenName (FsTree.name t)) = true →
      dcs.all (fun t => !(FsTree.name t == dn)) = true →
      hasFile dcs = true → shallowEmpties dcs = true →
      extract (Archive.good cs) true = Except.ok (some (sweepEmptyDirs dcs)) ∧
      containsEmptyDir (sweepEmptyDirs dcs) = false) := by
  refine ⟨?_, fun l => sweep_no_empties l, ?_⟩
  · intro t ht
    rcases List.mem_filter.mp ht with ⟨-, hp⟩
    intro hcontra
    subst hcontra
    simp at hp
  · intro dn dcs hshape hhid hname hfile hshallow
    have hvis : dcs.filter (fun t => !hiddenName (FsTree.name t)) = dcs :=
      List.filter_eq_self.mpr (fun t ht => List.all_eq_true.mp hhid t ht)
    have hcoll : (dcs.any fun c =>
        [FsTree.dir dn dcs].any fun t => FsTree.name t == FsTree.name c) = false := by
      rw [List.any_eq_false]
      intro c hc
      simp only [List.any_cons, List.any_nil, Bool.or_false, FsTree.name_dir]
      have h1 : (FsTree.name c == dn) = false := by
        have := List.all_eq_true.mp hname c hc
        rwa [Bool.not_eq_true'] at this
      have h2 : FsTree.name c ≠ dn := by
        intro he
        rw [he] at h1
        simp at h1
      intro hcontra
      exact h2 (eq_of_beq hcontra).symm
    have hnohid : (dcs.any fun t => hiddenName (FsTree.name t)) = false := by
      rw [List.any_eq_false]
      intro t ht
      have := List.all_eq_true.mp hhid t ht
      rw [Bool.not_eq_true'] at this
      rw [this]
      simp
    have hflat : remove_intermediary_dir (remove_filelist cs) = Except.ok dcs := by
      rw [hshape]
      show (if (dcs.filter (fun t => !hiddenName (FsTree.name t))).any
              (fun c => [FsTree.dir dn dcs].any fun t => FsTree.name t == FsTree.name c) then
              (Except.error () : Except Unit (List FsTree))
            else if dcs.any (fun t => hiddenName (FsTree.name t)) then Except.error ()
            else Except.ok ([FsTree.dir dn dcs].filter (fun t => !(FsTree.isDir t)) ++
              dcs.filter (fun t => !hiddenName (FsTree.name t)))) = Except.ok dcs
      rw [hvis, hcoll, hnohid]
      rfl
    have hdne : dcs.isEmpty = false := by
      cases dcs with
      | nil => simp [hasFile] at hfile
      | cons a as => rfl
    constructor
    · show (match remove_intermediary_dir (remove_filelist cs) with
        | Except.error () => (Except.error PyErr.osError : Except PyErr (Option (List FsTree)))
        | Except.ok cs2 => if cs2.isEmpty then Except.ok none
            else Except.ok (some (sweepEmptyDirs cs2))) =
          Except.ok (some (sweepEmptyDirs dcs))
      rw [hflat]
      show (if dcs.isEmpty then Except.ok none
          else Except.ok (some (sweepEmptyDirs dcs))) = Except.ok (some (sweepEmptyDirs dcs))
      rw [hdne]
      rfl
    · exact sweep_no_empties dcs hshallow

/-- Concrete check of C8 (amended) at a wrapped archive with one file and one
directly-empty directory: the wrapper and the empty directory are both gone. -/
theorem C8_extract_cleanup_witness :
    extract (Archive.good [FsTree.dir "w" [FsTree.file "f", FsTree.dir "d" []]]) true =
      Except.ok (some [FsTree.file "f"]) ∧
    containsEmptyDir [FsTree.file "f"] = false := by
  have h := (C8_extract_cleanup [FsTree.dir "w" [FsTree.file "f", FsTree.dir "d" []]]).2.2
    "w" [FsTree.file "f", FsTree.dir "d" []]
    (by simp [remove_filelist, List.filter])
    (by simp [hiddenName, FsTree.name])
    (by simp [FsTree.name])
    (by simp [hasFile])
    (by simp [shallowEmpties, hasFile])
  refine ⟨?_, ?_⟩
  · rw [h.1]
    simp [sweepEmptyDirs]
  · have h2 := h.2
    simp only [sweepEmptyDirs, List.isEmpty, if_true, if_false] at h2
    exact h2

/-! ## SyncRunner: the course loops of both drivers

The external Session's per-course behaviour (file download, media download,
new-files check) enters as oracle fields on the course records; the loop
structure, exception handling, status aggregation and the final
`update_last_sync` gate are the embedded code.  An uncaught Python exception
ends the process before the `update_last_sync` line; the embedding returns it
as `.error (exception, coursesCompleted)`, which carries no update flag. -/

/-- Outcome of `CourseRSync(...).download()` for one course in strategy A
(studip_rsync.py lines 83-94). -/
inductive FilesOutcomeA
  | ok
  | missingFeature
  | downloadError
  deriving DecidableEq, Repr

/-- Outcome of `session.download_media` for one course (both drivers). -/
inductive MediaOutcome
  | ok
  | missingFeature
  | missingPermission
  | downloadError
  | parserError
  deriving DecidableEq, Repr

structure CourseA where
  course_id : String
  save_as : String
  filesOutcome : FilesOutcomeA
  mediaOutcome : MediaOutcome

structure RunConfig where
  filesDest : Bool
  mediaDest : Bool
  ignoreIds : List String

/-- The ignore test of studip_rsync.py lines 74-75: the course id is in the
ignore list, or some ignore pattern (with `*` widened to `.*`) `re.match`es the
save-as title; the pattern matching itself is the external `re` engine,
abstracted as `igMatch`. -/
def courseIgnored (igMatch : String → String → Bool) (igs : List String)
    (cid saveAs : String) : Bool :=
  igs.contains cid || igs.any (fun ig => igMatch ig saveAs)

/-- The files block of `StudIPRSync.sync` (studip_rsync.py lines 82-94):
`MissingFeatureError` is swallowed, but the `DownloadError` handler sets
`status_code = 2` and then *re-raises* (line 94), so the error escapes the
block (the dead status assignment is dropped by the embedding, as the raise
makes it unobservable). -/
def filesStepA (cfg : RunConfig) (f : FilesOutcomeA) : Except PyErr Unit :=
  if cfg.filesDest then
    match f with
    | .downloadError => Except.error .downloadError
    | _ => Except.ok ()
  else Except.ok ()

/-- The media block of `StudIPRSync.sync` (studip_rsync.py lines 96-120):
`DownloadError` sets status 2 and re-raises (lines 111-114); `ParserError`
re-raises only when the status is already non-zero, else records 2. -/
def mediaStepA (cfg : RunConfig) (m : MediaOutcome) (status : Nat) :
    Except PyErr Nat :=
  if cfg.mediaDest then
    match m with
    | .downloadError => Except.error .downloadError
    | .parserError => if status ≠ 0 then Except.error .parserError else Except.ok 2
    | _ => Except.ok status
  else Except.ok status

/-- `StudIPRSync.sync`'s course loop and epilogue (studip_rsync.py lines
71-128).  `status` and `done` (courses completed) thread the loop; on
completion the pair is (exit status, whether `update_last_sync` ran — line
125: files destination configured and status zero).  An escaped exception
aborts the run: `.error` carries the exception and how many courses had
completed. -/
def syncA (igMatch : String → String → Bool) (cfg : RunConfig) :
    List CourseA → Nat → Nat → Except (PyErr × Nat) (Nat × Bool)
  | [], status, _done => Except.ok (status, cfg.filesDest && status == 0)
  | c :: rest, status, done =>
    if courseIgnored igMatch cfg.ignoreIds c.course_id c.save_as then
      syncA igMatch cfg rest status done
    else
      match filesStepA cfg c.filesOutcome with
      | .error e => Except.error (e, done)
      | .ok () =>
        match mediaStepA cfg c.mediaOutcome status with
        | .error e => Except.error (e, done)
        | .ok status1 => syncA igMatch cfg rest status1 (done + 1)

/-- Outcome of the download-and-extract block for one course in strategy B
(studip_sync.py lines 94-100); `noNewFiles` is the skipped branch. -/
inductive FilesOutcomeB
  | ok
  | noNewFiles
  | missingFeature
  | downloadError
  | extractionError
  deriving DecidableEq, Repr

structure CourseB where
  course_id : String
  save_as : String
  filesOutcome : FilesOutcomeB
  mediaOutcome : MediaOutcome

/-- The ignore test of studip_sync.py lines 86-87, evaluated *after* the
`save_as` overwrite of line 85: the membership test short-circuits, the `any`
generator is empty for an empty ignore list, and otherwise each `re.match`
receives the overwritten `save_as` — a `TypeError` when that value is the
Python constant `False` (`none`). -/
def courseIgnoredB (igMatch : String → String → Bool) (igs : List String)
    (cid : String) (saveAs : Option String) : Except PyErr Bool :=
  if igs.contains cid then Except.ok true
  else
    match saveAs with
    | none => if igs.isEmpty then Except.ok false else Except.error .typeError
    | some s => Except.ok (igs.any (fun ig => igMatch ig s))

/-- The files block of `StudipSync.sync` (studip_sync.py lines 92-109) for one
course: `session.download` can fail with `DownloadError`/`MissingFeatureError`
before `extractor.extract` is reached.  Inside `extract` (lines 213-225) the
`zipfile.ZipFile(...)` constructor runs *before*
`os.path.join(self.basedir, destination)`, so a malformed container raises
`BadZipFile` → `ExtractionError` without the join ever seeing the overwritten
`save_as`; that error is caught and recorded as status 2.  Only when the
archive opens does the join run, raising an uncaught `TypeError` when
`save_as` is `False`.  `DownloadError`/`ExtractionError` are caught and
recorded as status 2. -/
def filesStepB (cfg : RunConfig) (saveAs : Option String) (f : FilesOutcomeB)
    (status : Nat) : Except PyErr Nat :=
  if cfg.filesDest then
    match f with
    | .downloadError => Except.ok 2
    | .ok =>
      match saveAs with
      | none => Except.error .typeError
      | some _ => Except.ok status
    | .extractionError => Except.ok 2
    | _ => Except.ok status
  else Except.ok status

/-- The media block of `StudipSync.sync` (studip_sync.py lines 111-132) for
one course: the destination join `os.path.join(media_dest, course["save_as"])`
raises `TypeError` on an overwritten-to-`False` `save_as` before
`download_media` is called; `DownloadError` is recorded as status 2 (no
re-raise, unlike strategy A); `ParserError` re-raises only on an already
non-zero status. -/
def mediaStepB (cfg : RunConfig) (saveAs : Option String) (m : MediaOutcome)
    (status : Nat) : Except PyErr Nat :=
  if cfg.mediaDest then
    match saveAs with
    | none => Except.error .typeError
    | some _ =>
      match m with
      | .downloadError => Except.ok 2
      | .parserError => if status ≠ 0 then Except.error .parserError else Except.ok 2
      | _ => Except.ok status
  else Except.ok status

/-- `StudipSync.sync`'s course loop and epilogue (studip_sync.py lines
82-144).  Line 85 overwrites `save_as` with `short_course_name(...)` — the
Python constant `False` (`none`) for a non-matching title — before the ignore
test and both per-course blocks.  After the loop the staging tree is mirrored
by the external `rsync` subprocess (`RsyncWrapper`, `--backup --suffix` with
the same `.old` convention) and `update_last_sync` runs iff a files
destination is configured and the status is zero (lines 137-142). -/
def syncB (igMatch : String → String → Bool) (cfg : RunConfig) :
    List CourseB → Nat → Nat → Except (PyErr × Nat) (Nat × Bool)
  | [], status, _done => Except.ok (status, cfg.filesDest && status == 0)
  | c :: rest, status, done =>
    match courseIgnoredB igMatch cfg.ignoreIds c.course_id
        (short_course_name_sync c.save_as) with
    | .error e => Except.error (e, done)
    | .ok true => syncB igMatch cfg rest status done
    | .ok false =>
      match filesStepB cfg (short_course_name_sync c.save_as) c.filesOutcome status with
      | .error e => Except.error (e, done)
      | .ok status1 =>
        match mediaStepB cfg (short_course_name_sync c.save_as) c.mediaOutcome status1 with
        | .error e => Except.error (e, done)
        | .ok status2 => syncB igMatch cfg rest status2 (done + 1)

theorem short_course_name_sync_eq_none (name : String)
    (h : matchShortPattern (clean_name name).data = none) :
    short_course_name_sync name = none := by
  unfold short_course_name_sync
  rw [h]

theorem filesStepB_ok (cfg : RunConfig) (sa : Option String) (f : FilesOutcomeB)
    (status s1 : Nat) (h : filesStepB cfg sa f status = Except.ok s1) :
    s1 = 2 ∨ s1 = status := by
  unfold filesStepB at h
  split at h
  · split at h
    · rw [Except.ok.injEq] at h; subst h; simp
    · split at h
      · exact absurd h (by simp)
      · rw [Except.ok.injEq] at h; subst h; simp
    · rw [Except.ok.injEq] at h; subst h; simp
    · rw [Except.ok.injEq] at h; subst h; simp
  · rw [Except.ok.injEq] at h; subst h; simp

theorem mediaStepB_ok (cfg : RunConfig) (sa : Option String) (m : MediaOutcome)
    (status s1 : Nat) (h : mediaStepB cfg sa m status = Except.ok s1) :
    s1 = 2 ∨ s1 = status := by
  unfold mediaStepB at h
  split at h
  · split at h
    · exact absurd h (by simp)
    · split at h
      · rw [Except.ok.injEq] at h; subst h; simp
      · split at h
        · exact absurd h (by simp)
        · rw [Except.ok.injEq] at h; subst h; simp
      · rw [Except.ok.injEq] at h; subst h; simp
  · rw [Except.ok.injEq] at h; subst h; simp

theorem mediaStepA_ok (cfg : RunConfig) (m : MediaOutcome) (status s1 : Nat)
    (h : mediaStepA cfg m status = Except.ok s1) : s1 = 2 ∨ s1 = status := by
  unfold mediaStepA at h
  split at h
  · split at h
    · exact absurd h (by simp)
    · split at h
      · exact absurd h (by simp)
      · rw [Except.ok.injEq] at h; subst h; simp
    · rw [Except.ok.injEq] at h; subst h; simp
  · rw [Except.ok.injEq] at h; subst h; simp

theorem syncA_ok_inv (igMatch : String → String → Bool) (cfg : RunConfig) :
    ∀ (courses : List CourseA) (status done st : Nat) (upd : Bool),
      syncA igMatch cfg courses status done = Except.ok (st, upd) →
      upd = (cfg.filesDest && st == 0) ∧ (status ≠ 0 → st ≠ 0) := by
  intro courses
  induction courses with
  | nil =>
    intro status done st upd h
    simp only [syncA, Except.ok.injEq, Prod.mk.injEq] at h
    obtain ⟨h1, h2⟩ := h
    subst h1
    subst h2
    exact ⟨rfl, fun hs => hs⟩
  | cons c rest ih =>
    intro status done st upd h
    simp only [syncA] at h
    split at h
    · exact ih status done st upd h
    · split at h
      · simp at h
      · split at h
        · simp at h
        · rename_i s1 hms
          have hrec := ih s1 (done + 1) st upd h
          refine ⟨hrec.1, fun hs => hrec.2 ?_⟩
          rcases mediaStepA_ok cfg _ status s1 hms with h2 | h2 <;> omega

theorem syncB_ok_inv (igMatch : String → String → Bool) (cfg : RunConfig) :
    ∀ (courses : List CourseB) (status done st : Nat) (upd : Bool),
      syncB igMatch cfg courses status done = Except.ok (st, upd) →
      upd = (cfg.filesDest && st == 0) ∧ (status ≠ 0 → st ≠ 0) := by
  intro courses
  induction courses with
  | nil =>
    intro status done st upd h
    simp only [syncB, Except.ok.injEq, Prod.mk.injEq] at h
    obtain ⟨h1, h2⟩ := h
    subst h1
    subst h2
    exact ⟨rfl, fun hs => hs⟩
  | cons c rest ih =>
    intro status done st upd h
    simp only [syncB] at h
    split at h
    · simp at h
    · exact ih status done st upd h
    · split at h
      · simp at h
      · rename_i s1 hfs
        split at h
        · simp at h
        · rename_i s2 hms
          have hrec := ih s2 (done + 1) st upd h
          refine ⟨hrec.1, fun hs => hrec.2 ?_⟩
          rcases mediaStepB_ok cfg _ _ s1 s2 hms with h2 | h2
          · omega
          · rcases filesStepB_ok cfg _ _ status s1 hfs with h3 | h3 <;> omega

/-- C3: the failing input evaluated.  In strategy A the first course's file
download failure sets `status_code = 2` and then *re-raises*
(studip_rsync.py line 94): the run aborts with zero courses completed and the
second course is never reached.  Strategy B on the analogous input records
status 2 and continues to the second course, finishing with exit status 2 —
the behaviour the claim describes for both strategies. -/
theorem C3_failing_input_eval :
    syncA (fun _ _ => false) ⟨true, false, []⟩
      [⟨"c1", "T1", .downloadError, .ok⟩, ⟨"c2", "T2", .ok, .ok⟩] 0 0 =
      Except.error (.downloadError, 0) ∧
    syncB (fun _ _ => false) ⟨true, false, []⟩
      [⟨"c1", "101 V Title", .downloadError, .ok⟩, ⟨"c2", "102 V Title", .ok, .ok⟩] 0 0 =
      Except.ok (2, false) := by
  constructor
  · rfl
  · rfl

/-- C6: in strategy B a course whose title does not match the short-name
pattern has its `save_as` overwritten with the boolean `False` before the
ignore-regex match and before the extraction/media path joins; with a files
destination configured and a downloaded archive that opens (the
`zipfile.ZipFile` constructor runs before the join, so only then is the join
reached), the `os.path.join` `TypeError` aborts the entire run (the handlers
catch only MissingFeature/Download/Extraction errors), and with a nonempty
ignore pattern list the `TypeError` already fires inside the ignore test.  A
*malformed* archive, by contrast, raises `BadZipFile` before the join, is
caught as `ExtractionError` and recorded as a per-course status 2, and the run
continues (third conjunct, with no media destination). -/
theorem C6_saveas_false_aborts_run (igMatch : String → String → Bool)
    (mediaDest : Bool) (cid title : String)
    (h : matchShortPattern (clean_name title).data = none) :
    (∀ (m : MediaOutcome) (rest : List CourseB) (status done : Nat),
      syncB igMatch ⟨true, mediaDest, []⟩
        (⟨cid, title, FilesOutcomeB.ok, m⟩ :: rest) status done =
        Except.error (.typeError, done)) ∧
    (∀ (filesDest : Bool) (ig : String) (igs : List String) (out : FilesOutcomeB)
        (m : MediaOutcome) (rest : List CourseB) (status done : Nat),
      ((ig :: igs).contains cid) = false →
      syncB igMatch ⟨filesDest, mediaDest, ig :: igs⟩ (⟨cid, title, out, m⟩ :: rest)
        status done = Except.error (.typeError, done)) ∧
    (∀ (m : MediaOutcome) (status done : Nat),
      syncB igMatch ⟨true, false, []⟩
        [⟨cid, title, FilesOutcomeB.extractionError, m⟩] status done =
        Except.ok (2, false)) := by
  have hnone : short_course_name_sync title = none := short_course_name_sync_eq_none title h
  refine ⟨?_, ?_, ?_⟩
  · intro m rest status done
    simp [syncB, courseIgnoredB, hnone, filesStepB]
  · intro filesDest ig igs out m rest status done hmem
    have hmem2 : ¬ (cid = ig ∨ cid ∈ igs) := by simpa using hmem
    simp [syncB, courseIgnoredB, hnone, hmem2]
  · intro m status done
    simp [syncB, courseIgnoredB, hnone, filesStepB, mediaStepB]

/-- Concrete check of C6: a single non-matching course with a files
destination aborts the whole run with a `TypeError`. -/
theorem C6_saveas_false_aborts_run_witness :
    syncB (fun _ _ => false) ⟨true, false, []⟩
      [⟨"c1", "Seminar", FilesOutcomeB.ok, MediaOutcome.ok⟩] 0 0 =
      Except.error (PyErr.typeError, 0) := by
  exact (C6_saveas_false_aborts_run (fun _ _ => false) false "c1" "Seminar" (by rfl)).1
    MediaOutcome.ok [] 0 0

/-- C7: in both drivers a *completed* run advances the persisted last-sync
timestamp iff a files destination is configured and the aggregate status is
zero; the status never resets once non-zero, so a run with any recorded
per-course failure leaves the timestamp unchanged, as does a run without a
files destination.  An aborted run (`.error`, an uncaught exception) ends
before the `update_last_sync` line, which the embedding encodes by the error
result carrying no update flag. -/
theorem C7_last_sync_gate (igMatch : String → String → Bool) (cfg : RunConfig) :
    (∀ (courses : List CourseA) (status done st : Nat) (upd : Bool),
      syncA igMatch cfg courses status done = Except.ok (st, upd) →
      ((upd = true ↔ (cfg.filesDest = true ∧ st = 0)) ∧ (status ≠ 0 → st ≠ 0))) ∧
    (∀ (courses : List CourseB) (status done st : Nat) (upd : Bool),
      syncB igMatch cfg courses status done = Except.ok (st, upd) →
      ((upd = true ↔ (cfg.filesDest = true ∧ st = 0)) ∧ (status ≠ 0 → st ≠ 0))) := by
  constructor
  · intro courses status done st upd h
    have hinv := syncA_ok_inv igMatch cfg courses status done st upd h
    refine ⟨?_, hinv.2⟩
    rw [hinv.1]
    simp [Nat.beq_eq_true_eq]
  · intro courses status done st upd h
    have hinv := syncB_ok_inv igMatch cfg courses status done st upd h
    refine ⟨?_, hinv.2⟩
    rw [hinv.1]
    simp [Nat.beq_eq_true_eq]

/-- Concrete check of C7: a clean run with a files destination updates the
timestamp; a run with a recorded download failure does not. -/
theorem C7_last_sync_gate_witness :
    (((true : Bool) = true) ↔ (true = true ∧ (0 : Nat) = 0)) ∧
    (((false : Bool) = true) ↔ (true = true ∧ (2 : Nat) = 0)) := by
  constructor
  · exact ((C7_last_sync_gate (fun _ _ => false) ⟨true, false, []⟩).1
      [⟨"c1", "T", .ok, .ok⟩] 0 0 0 true (by rfl)).1
  · exact ((C7_last_sync_gate (fun _ _ => false) ⟨true, false, []⟩).2
      [⟨"c1", "103 V Algebra", .downloadError, .ok⟩] 0 0 2 false (by rfl)).1

end StudipSync
